import Mathlib

/-!
# Super Template Tetris: the game state machine of `game.h`

`game.h` encodes the game as a type-level computation: a state is an
instantiation of the class template `State`, and a transition is a template
alias or a member `type` of a class template.  The embedding below turns each
type-level function into a Lean function on a record of the template
arguments.

* An alias that always names a type (`set_position`, `place_initial_piece`,
  `place_piece`, `Down`) is a total function.
* A class template that may fail to instantiate returns `Option`:
  `move_block` has no definition outside its four specialisations, and `step`
  is chosen among one primary template and two partial specialisations.
* `HardDrop<state>::Drop` is an unbounded template recursion; it takes a fuel
  argument that counts the instantiations of `Drop`.

`game.h` includes `grid.h`, `playfield.h`, `buffer.h`, `block_generator.h`,
`input.h`, none of which is part of the sources at hand.  What `game.h` uses
from them is collected in the record `Headers`, over which every function
of `game.h` is parametrised.  Concrete instances of these, written after the
prose specification, are used for evaluating on concrete inputs.
-/

namespace Tetris

/-! ## Data taken from the missing headers -/

/-- Modelled from the spec: the position header is missing; a position is a
pair of signed integers `(x, y)`. -/
structure Position where
  x : Int
  y : Int
deriving DecidableEq

/-- Modelled from the spec: `Position::add`, the component-wise sum. -/
def Position.add (a b : Position) : Position :=
  ⟨a.x + b.x, a.y + b.y⟩

/-- Modelled from the spec: a cell is either empty (`empty_pixel`) or occupied
with a display attribute (`Pixel<glyph, gfx>`); the glyph is kept as its
character code. -/
inductive Pixel where
  | empty_pixel
  | pixel (glyph : Nat)
deriving DecidableEq

/-- Modelled from the spec: `grid.h` is missing; a grid is a rectangular
array of cells, kept as the list of its rows. -/
structure Grid where
  rows : List (List Pixel)
deriving DecidableEq

/-- Number of rows of a grid (`Grid::height`). -/
def Grid.height (g : Grid) : Nat :=
  g.rows.length

/-- Number of columns of a grid (`Grid::width`), read off the first row. -/
def Grid.width (g : Grid) : Nat :=
  (g.rows.headD []).length

/-- Cell of a grid at column `x`, row `y`; empty outside the stored rows. -/
def Grid.get (g : Grid) (x y : Nat) : Pixel :=
  (g.rows.getD y []).getD x Pixel.empty_pixel

/-- Whether the cell of a grid at column `x`, row `y` is occupied. -/
def Grid.occupied (g : Grid) (x y : Nat) : Bool :=
  decide (g.get x y ≠ Pixel.empty_pixel)

/-- Modelled from the spec: `input.h` is missing; the spec gives the closed
enumeration `{Left, Right, RRot, LRot, Up, Other}`. -/
inductive Input where
  | Left
  | Right
  | RRot
  | LRot
  | Up
  | Other
deriving DecidableEq

/-- General state of the player (`enum class PlayerState`). -/
inductive PlayerState where
  | Alive
  | Dead
deriving DecidableEq

/-- What `game.h` uses from the headers it includes.  `Block` stands for the
block types (each with members `pieces`, `rotateCw`, `rotateCcw`), `Gen` for
the block generator types (each with members `value` and `next`). -/
structure Headers (Block Gen : Type) where
  /-- The member `block::pieces`: the shape of a block. -/
  pieces : Block → Grid
  /-- The member `block::rotateCw`. -/
  rotateCw : Block → Block
  /-- The member `block::rotateCcw`. -/
  rotateCcw : Block → Block
  /-- The member `generator::value`: the current block of a generator. -/
  value : Gen → Block
  /-- The member `generator::next`: the advanced generator. -/
  next : Gen → Gen
  /-- The metafunction `playfield_is_colliding<position, pieces, world>::value`. -/
  playfield_is_colliding : Position → Grid → Grid → Bool
  /-- The metafunction `buffer_draw_grid<origin, source, target>`. -/
  buffer_draw_grid : Position → Grid → Grid → Grid
  /-- The constant `initialBlockGenerator`. -/
  initialBlockGenerator : Gen
  /-- The constant `InitialWorld`. -/
  InitialWorld : Grid

/-! ## `State` and its member aliases (game.h, lines 38-83) -/

/-- The class template `State`: one field per template parameter. -/
structure State (Block Gen : Type) where
  playerState : PlayerState
  score : Nat
  delay : Nat
  position : Position
  block : Block
  world : Grid
  random : Gen
deriving DecidableEq

variable {Block Gen : Type}

/-- The alias `State::nextBlock = currentBlockGenerator::next::value`. -/
def State.nextBlock (h : Headers Block Gen) (s : State Block Gen) : Block :=
  h.value (h.next s.random)

/-- The alias `State::set_position`. -/
def State.set_position (s : State Block Gen) (newPos : Position) : State Block Gen :=
  ⟨s.playerState, s.score, s.delay, newPos, s.block, s.world, s.random⟩

/-- The alias `State::set_world`. -/
def State.set_world (s : State Block Gen) (newWorld : Grid) : State Block Gen :=
  ⟨s.playerState, s.score, s.delay, s.position, s.block, newWorld, s.random⟩

/-- The alias `State::set_random`. -/
def State.set_random (s : State Block Gen) (newRandom : Gen) : State Block Gen :=
  ⟨s.playerState, s.score, s.delay, s.position, s.block, s.world, newRandom⟩

/-- The alias `State::set_block`. -/
def State.set_block (s : State Block Gen) (newBlock : Block) : State Block Gen :=
  ⟨s.playerState, s.score, s.delay, s.position, newBlock, s.world, s.random⟩

/-- The column `(currentWorld::width / 2) - (nextBlock::pieces::width) / 2` of
a spawned piece.  The two widths are naturals and the halves are truncating
divisions; the difference is taken in the integers. -/
def spawnColumn (worldWidth pieceWidth : Nat) : Int :=
  ((worldWidth / 2 : Nat) : Int) - ((pieceWidth / 2 : Nat) : Int)

/-- The alias `State::place_initial_piece`: the next block becomes the active
block at the centred column of row 0, and the generator is advanced. -/
def State.place_initial_piece (h : Headers Block Gen) (s : State Block Gen) :
    State Block Gen :=
  ⟨s.playerState,
   s.score,
   s.delay,
   ⟨spawnColumn s.world.width (h.pieces (s.nextBlock h)).width, 0⟩,
   s.nextBlock h,
   s.world,
   h.next s.random⟩

/-- The alias `InitialState` (game.h, lines 88-96). -/
def InitialState (h : Headers Block Gen) : State Block Gen :=
  State.place_initial_piece h
    ⟨PlayerState.Alive, 0, 0, ⟨0, 0⟩, h.value h.initialBlockGenerator,
     h.InitialWorld, h.initialBlockGenerator⟩

/-! ## Placing, dropping, moving (game.h, lines 101-176) -/

/-- The alias `place_piece`: draw the block into the world at the current
position, then spawn the next piece. -/
def place_piece (h : Headers Block Gen) (s : State Block Gen) : State Block Gen :=
  State.place_initial_piece h
    (s.set_world (h.buffer_draw_grid s.position (h.pieces s.block) s.world))

/-- The state one row below `s` (`Drop::next`, `Down::gnext`). -/
def below (s : State Block Gen) : State Block Gen :=
  s.set_position (s.position.add ⟨0, 1⟩)

/-- Whether the piece of a state collides where the state puts it. -/
def collides (h : Headers Block Gen) (s : State Block Gen) : Bool :=
  h.playfield_is_colliding s.position (h.pieces s.block) s.world

/-- The recursion `HardDrop::Drop<s>::type`: `s` itself when the state one row
below collides, `Drop<next>::type` otherwise (`branch_t<c, identity<s>, con>`
names the member `type` of the selected branch only, so `Drop<next>` is
instantiated only when `next` does not collide).  The fuel bounds the number
of instantiations of `Drop`; `none` means the fuel ran out. -/
def Drop (h : Headers Block Gen) : Nat → State Block Gen → Option (State Block Gen)
  | 0, _ => none
  | fuel + 1, s => if collides h (below s) then some s else Drop h fuel (below s)

/-- The member `HardDrop<state>::type = Drop<state>::type`. -/
def HardDrop (h : Headers Block Gen) (fuel : Nat) (state : State Block Gen) :
    Option (State Block Gen) :=
  Drop h fuel state

/-- The class template `move_block`: declared for every input, defined by
specialisation for `Left`, `Right`, `RRot` and `LRot` only. -/
def move_block (h : Headers Block Gen) : Input → State Block Gen → Option (State Block Gen)
  | Input.Left, state => some (state.set_position (state.position.add ⟨-1, 0⟩))
  | Input.Right, state => some (state.set_position (state.position.add ⟨1, 0⟩))
  | Input.RRot, state => some (state.set_block (h.rotateCw state.block))
  | Input.LRot, state => some (state.set_block (h.rotateCcw state.block))
  | _, _ => none

/-- The member `move<input, state>::type`: the moved state, or `state` when
the moved piece collides. -/
def move (h : Headers Block Gen) (input : Input) (state : State Block Gen) :
    Option (State Block Gen) :=
  (move_block h input state).map fun next => if collides h next then state else next

/-! ## `step` (game.h, lines 181-222) -/

/-- The member `step::Down<s>::type`: gravity, keeping `s` when the state one
row below collides. -/
def Down (h : Headers Block Gen) (s : State Block Gen) : State Block Gen :=
  if collides h (below s) then s else below s

/-- The three definitions of the class template `step`. -/
inductive StepTemplate where
  /-- The primary template `step<input, state>`. -/
  | primary
  /-- The partial specialisation `step<Input::Up, state>`. -/
  | hardDrop
  /-- The partial specialisation `step<input, State<PlayerState::Dead, ...>>`. -/
  | dead
deriving DecidableEq

/-- Whether the template arguments `<input, State<p, ...>>` match a
definition of `step`. -/
def StepTemplate.accepts : StepTemplate → Input → PlayerState → Bool
  | StepTemplate.primary, _, _ => true
  | StepTemplate.hardDrop, input, _ => decide (input = Input.Up)
  | StepTemplate.dead, _, p => decide (p = PlayerState.Dead)

/-- Partial ordering of the definitions of `step`: every definition is at
least as specialised as itself and as the primary template.  Neither partial
specialisation is at least as specialised as the other, since `Input::Up`
cannot be deduced from a generic `input`, nor `State<Dead, ...>` from a
generic `state`. -/
def StepTemplate.atLeastAsSpecialised : StepTemplate → StepTemplate → Bool
  | _, StepTemplate.primary => true
  | StepTemplate.hardDrop, StepTemplate.hardDrop => true
  | StepTemplate.dead, StepTemplate.dead => true
  | _, _ => false

/-- The definition of `step` that an instantiation uses: among the matching
definitions, the one that is at least as specialised as all of them; `none`
when there is no such definition (an ambiguous instantiation). -/
def selectStep (input : Input) (p : PlayerState) : Option StepTemplate :=
  let matching :=
    [StepTemplate.primary, StepTemplate.hardDrop, StepTemplate.dead].filter
      fun t => t.accepts input p
  matching.find? fun t => matching.all fun u => t.atLeastAsSpecialised u

/-- The member `step<input, state>::type`. -/
def step (h : Headers Block Gen) (fuel : Nat) (input : Input) (state : State Block Gen) :
    Option (State Block Gen) :=
  match selectStep input state.playerState with
  | none => none
  | some StepTemplate.primary => (move h input state).map (Down h)
  | some StepTemplate.hardDrop => (HardDrop h fuel state).map (place_piece h)
  | some StepTemplate.dead => some state

/-! ## The playfield and the buffer, after the prose specification -/

/-- Modelled from the spec: whether the world cell at column `wx`, row `wy`
blocks an occupied piece cell, that is when it is (a) outside the horizontal
bounds of the world, (b) below its bottom bound, or (c) occupied in the world.
A row above the top bound (negative `wy`) never blocks. -/
def cellBlocked (world : Grid) (wx wy : Int) : Bool :=
  decide (wx < 0) || decide ((world.width : Int) ≤ wx) || decide ((world.height : Int) ≤ wy)
    || (decide (0 ≤ wy) && world.occupied wx.toNat wy.toNat)

/-- Whether an occupied cell of a piece row collides; the row lies at world
row `wy` and its first cell at world column `wx`. -/
def rowColliding (world : Grid) (wy : Int) : Int → List Pixel → Bool
  | _, [] => false
  | wx, p :: ps =>
    (decide (p ≠ Pixel.empty_pixel) && cellBlocked world wx wy)
      || rowColliding world wy (wx + 1) ps

/-- Whether an occupied cell of some piece row collides; the first row lies
at world row `wy`, and every row starts at world column `wx`. -/
def rowsColliding (world : Grid) (wx : Int) : Int → List (List Pixel) → Bool
  | _, [] => false
  | wy, r :: rs => rowColliding world wy wx r || rowsColliding world wx (wy + 1) rs

/-- Modelled from the spec: `playfield.h` is missing;
`isColliding(position, pieceShape, world)` is true when some occupied cell of
`pieceShape`, placed at `position`, falls on a world cell that is outside the
horizontal bounds, below the bottom bound, or occupied. -/
def playfield_is_colliding (position : Position) (pieces world : Grid) : Bool :=
  rowsColliding world position.x position.y pieces.rows

/-- The cell that `source`, placed at `origin`, puts on the target cell at
column `tx`, row `ty`: the source cell when it exists and is occupied, the
target cell `p` otherwise. -/
def drawCell (origin : Position) (source : Grid) (tx ty : Int) (p : Pixel) : Pixel :=
  if 0 ≤ tx - origin.x ∧ tx - origin.x < source.width
      ∧ 0 ≤ ty - origin.y ∧ ty - origin.y < source.height
      ∧ source.occupied (tx - origin.x).toNat (ty - origin.y).toNat = true
  then source.get (tx - origin.x).toNat (ty - origin.y).toNat
  else p

/-- Overlay of `source` on one target row, whose first cell is at column `tx`. -/
def drawRow (origin : Position) (source : Grid) (ty : Int) : Int → List Pixel → List Pixel
  | _, [] => []
  | tx, p :: ps => drawCell origin source tx ty p :: drawRow origin source ty (tx + 1) ps

/-- Overlay of `source` on the target rows, the first of which is row `ty`. -/
def drawRows (origin : Position) (source : Grid) : Int → List (List Pixel) → List (List Pixel)
  | _, [] => []
  | ty, r :: rs => drawRow origin source ty 0 r :: drawRows origin source (ty + 1) rs

/-- Modelled from the spec: `buffer.h` is missing;
`drawGrid(origin, sourceGrid, targetGrid)` overlays every non-empty cell of
`sourceGrid`, placed at `origin`, onto a copy of `targetGrid`; empty source
cells leave the target cell untouched, and cells landing outside the target
are dropped. -/
def buffer_draw_grid (origin : Position) (source target : Grid) : Grid :=
  ⟨drawRows origin source 0 target.rows⟩

/-! ## A small catalog and generator for evaluating the game -/

/-- A catalog of three blocks: the square and the two orientations of the bar. -/
inductive SampleBlock where
  | square
  | barFlat
  | barUpright
deriving DecidableEq

/-- The occupied cell used by the sample catalog. -/
def X : Pixel := Pixel.pixel 35

/-- The empty cell. -/
def o : Pixel := Pixel.empty_pixel

/-- Shapes of the sample catalog. -/
def SampleBlock.pieces : SampleBlock → Grid
  | SampleBlock.square => ⟨[[X, X], [X, X]]⟩
  | SampleBlock.barFlat => ⟨[[X, X, X, X]]⟩
  | SampleBlock.barUpright => ⟨[[X], [X], [X], [X]]⟩

/-- Quarter turn of a sample block (the same in both directions). -/
def SampleBlock.rotate : SampleBlock → SampleBlock
  | SampleBlock.square => SampleBlock.square
  | SampleBlock.barFlat => SampleBlock.barUpright
  | SampleBlock.barUpright => SampleBlock.barFlat

/-- Modelled from the spec: `random.h` and `block_generator.h` are missing; a
linear congruential stream of unsigned 32-bit values, here with multiplier 1
and increment 1, held as the current value of the stream. -/
structure LinearGenerator where
  seed : Nat
deriving DecidableEq

/-- The advanced generator. -/
def LinearGenerator.next (g : LinearGenerator) : LinearGenerator :=
  ⟨(g.seed + 1) % 2 ^ 32⟩

/-- The block of a generator: its value modulo the size of the catalog. -/
def LinearGenerator.value (g : LinearGenerator) : SampleBlock :=
  match g.seed % 3 with
  | 0 => SampleBlock.square
  | 1 => SampleBlock.barFlat
  | _ => SampleBlock.barUpright

/-- The headers instantiated with the playfield and buffer of the prose
specification, the sample catalog, the generator seeded with 12345 (the seed
of `InitialRandom`) and a given initial world. -/
def sampleHeaders (initialWorld : Grid) : Headers SampleBlock LinearGenerator :=
  { pieces := SampleBlock.pieces
    rotateCw := SampleBlock.rotate
    rotateCcw := SampleBlock.rotate
    value := LinearGenerator.value
    next := LinearGenerator.next
    playfield_is_colliding := playfield_is_colliding
    buffer_draw_grid := buffer_draw_grid
    initialBlockGenerator := ⟨12345⟩
    InitialWorld := initialWorld }

/-- The empty world of 4 columns and 4 rows. -/
def emptyWorld4 : Grid :=
  ⟨[[o, o, o, o], [o, o, o, o], [o, o, o, o], [o, o, o, o]]⟩

/-- The headers over the empty 4 by 4 world. -/
def sample : Headers SampleBlock LinearGenerator :=
  sampleHeaders emptyWorld4

/-! ## The transitions as the specification words them -/

/-- The state `s` with its position shifted by `(dx, dy)`, all else kept. -/
def shifted (s : State Block Gen) (dx dy : Int) : State Block Gen :=
  { s with position := ⟨s.position.x + dx, s.position.y + dy⟩ }

/-- Outcome of a move: the candidate `m`, replaced by the state `s` it was
made from when the piece of `m` collides with the world of `m`. -/
def moveOutcome (h : Headers Block Gen) (s m : State Block Gen) : State Block Gen :=
  if h.playfield_is_colliding m.position (h.pieces m.block) m.world = true then s else m

/-- Outcome of gravity on `m`: `m` shifted by `(0, +1)` when that placement
does not collide, and `m` itself otherwise. -/
def gravityOutcome (h : Headers Block Gen) (m : State Block Gen) : State Block Gen :=
  if h.playfield_is_colliding ⟨m.position.x, m.position.y + 1⟩ (h.pieces m.block) m.world
      = true
  then m else shifted m 0 1

/-! ## Sample states -/

/-- The square at column 1, row 0 of the empty 4 by 4 world. -/
def squareStart : State SampleBlock LinearGenerator :=
  ⟨PlayerState.Alive, 0, 0, ⟨1, 0⟩, SampleBlock.square, emptyWorld4, ⟨12345⟩⟩

/-- The square against the left wall of the empty 4 by 4 world. -/
def squareAtLeftWall : State SampleBlock LinearGenerator :=
  ⟨PlayerState.Alive, 0, 0, ⟨0, 0⟩, SampleBlock.square, emptyWorld4, ⟨12345⟩⟩

/-- A dead state. -/
def deadSquare : State SampleBlock LinearGenerator :=
  ⟨PlayerState.Dead, 0, 0, ⟨1, 0⟩, SampleBlock.square, emptyWorld4, ⟨12345⟩⟩

/-- The 4 by 4 world after a square was locked on the floor in columns 1, 2. -/
def stackedWorld4 : Grid :=
  ⟨[[o, o, o, o], [o, o, o, o], [o, X, X, o], [o, X, X, o]]⟩

/-- A square at column 1, row 0, right on top of the locked square. -/
def squareOnStack : State SampleBlock LinearGenerator :=
  ⟨PlayerState.Alive, 0, 0, ⟨1, 0⟩, SampleBlock.square, stackedWorld4, ⟨12345⟩⟩

/-- The 4 by 8 world after an upright bar was locked on the floor in column
0 and a flat bar was locked on top of it: row 3 is full, and below it the
columns 1 to 3 are empty. -/
def cavernWorld : Grid :=
  ⟨[[o, o, o, o], [o, o, o, o], [o, o, o, o], [X, X, X, X],
    [X, o, o, o], [X, o, o, o], [X, o, o, o], [X, o, o, o]]⟩

/-- A square at column 1, row 0 of the world with the cavern. -/
def squareOverCavern : State SampleBlock LinearGenerator :=
  ⟨PlayerState.Alive, 0, 0, ⟨1, 0⟩, SampleBlock.square, cavernWorld, ⟨12345⟩⟩

/-- The candidate state of a move, as the specification words it: `s` shifted
by `(-1, 0)` for Left, by `(+1, 0)` for Right, `s` with the block rotated
clockwise for RRot and counter-clockwise for LRot. -/
def IsCandidate (h : Headers Block Gen) (input : Input) (s m : State Block Gen) : Prop :=
  (input = Input.Left ∧ m = shifted s (-1) 0)
    ∨ (input = Input.Right ∧ m = shifted s 1 0)
    ∨ (input = Input.RRot ∧ m = { s with block := h.rotateCw s.block })
    ∨ (input = Input.LRot ∧ m = { s with block := h.rotateCcw s.block })

/-! ## The parts of `Printer<State>` about the next block and the ghost
(game.h, lines 251-293) -/

/-- The alias `Printer::next_block`: the shape of `self::nextBlock` drawn at
`Position<world::width + 2 + 2, 2>` on `initial_buffer`.  The buffer
`initial_buffer` is built by metafunctions of `buffer.h` and is taken as an
argument. -/
def Printer.next_block (h : Headers Block Gen) (initial_buffer : Grid)
    (self : State Block Gen) : Grid :=
  h.buffer_draw_grid ⟨(self.world.width : Int) + 2 + 2, 2⟩ (h.pieces (self.nextBlock h))
    initial_buffer

/-- The alias `Printer::ghostState = HardDrop<self>::type`. -/
def Printer.ghostState (h : Headers Block Gen) (fuel : Nat) (self : State Block Gen) :
    Option (State Block Gen) :=
  HardDrop h fuel self

/-- The metafunction `Printer::ToGhostPiece::apply`, read through the member
`type` of the `std::conditional` it names: `empty_pixel` stays `empty_pixel`,
every other cell becomes `Pixel<'~', default_gfx>` (character code 126). -/
def ToGhostPiece (x : Pixel) : Pixel :=
  if x = Pixel.empty_pixel then Pixel.empty_pixel else Pixel.pixel 126

/-- Modelled from the spec: `fmap_t` is missing; `map(fn, grid)` applies a
cell transform uniformly, preserving dimensions. -/
def fmap_t (f : Pixel → Pixel) (g : Grid) : Grid :=
  ⟨g.rows.map fun r => r.map f⟩

/-- The alias `Printer::ghostPiece = fmap_t<ToGhostPiece, ghostState::block::pieces>`. -/
def Printer.ghostPiece (h : Headers Block Gen) (ghostState : State Block Gen) : Grid :=
  fmap_t ToGhostPiece (h.pieces ghostState.block)

/-- The alias `Printer::buffer`: the ghost piece drawn at
`Position<1, 1>::add<ghostState::position>` on `block_buffer`, which is taken
as an argument. -/
def Printer.buffer (h : Headers Block Gen) (block_buffer : Grid)
    (ghostState : State Block Gen) : Grid :=
  h.buffer_draw_grid ((⟨1, 1⟩ : Position).add ghostState.position)
    (Printer.ghostPiece h ghostState) block_buffer

/-! ## Runs of the game -/

/-- The state after a finite sequence of inputs, each with the fuel of its
step; `none` when one of the steps is not defined. -/
def steps (h : Headers Block Gen) : List (Nat × Input) → State Block Gen →
    Option (State Block Gen)
  | [], s => some s
  | (fuel, input) :: rest, s => (step h fuel input s).bind (steps h rest)

/-! # Theorems -/

/-! ## Shared lemmas -/

theorem selectStep_Up_Alive : selectStep Input.Up PlayerState.Alive = some StepTemplate.hardDrop := by
  decide

theorem selectStep_Up_Dead : selectStep Input.Up PlayerState.Dead = none := by
  decide

theorem selectStep_Dead (input : Input) (hne : input ≠ Input.Up) :
    selectStep input PlayerState.Dead = some StepTemplate.dead := by
  cases input <;> first | rfl | exact absurd rfl hne

theorem selectStep_Alive (input : Input) (hne : input ≠ Input.Up) :
    selectStep input PlayerState.Alive = some StepTemplate.primary := by
  cases input <;> first | rfl | exact absurd rfl hne

theorem step_Alive_of_ne_Up (h : Headers Block Gen) (fuel : Nat) (input : Input)
    (s : State Block Gen) (hs : s.playerState = PlayerState.Alive) (hne : input ≠ Input.Up) :
    step h fuel input s = (move h input s).map (Down h) := by
  simp [step, hs, selectStep_Alive input hne]

theorem step_Up_Alive (h : Headers Block Gen) (fuel : Nat) (s : State Block Gen)
    (hs : s.playerState = PlayerState.Alive) :
    step h fuel Input.Up s = (HardDrop h fuel s).map (place_piece h) := by
  simp [step, hs, selectStep_Up_Alive]

theorem Down_eq_gravityOutcome (h : Headers Block Gen) (m : State Block Gen) :
    Down h m = gravityOutcome h m := by
  simp [Down, gravityOutcome, collides, below, shifted, State.set_position, Position.add]

theorem move_Left (h : Headers Block Gen) (s : State Block Gen) :
    move h Input.Left s = some (moveOutcome h s (shifted s (-1) 0)) := by
  simp [move, move_block, moveOutcome, collides, shifted, State.set_position, Position.add]

theorem move_Right (h : Headers Block Gen) (s : State Block Gen) :
    move h Input.Right s = some (moveOutcome h s (shifted s 1 0)) := by
  simp [move, move_block, moveOutcome, collides, shifted, State.set_position, Position.add]

theorem move_RRot (h : Headers Block Gen) (s : State Block Gen) :
    move h Input.RRot s = some (moveOutcome h s { s with block := h.rotateCw s.block }) := by
  simp [move, move_block, moveOutcome, collides, State.set_block]

theorem move_LRot (h : Headers Block Gen) (s : State Block Gen) :
    move h Input.LRot s = some (moveOutcome h s { s with block := h.rotateCcw s.block }) := by
  simp [move, move_block, moveOutcome, collides, State.set_block]

/-! ## C1: a move step is the move followed by gravity -/

/-- C1: for an Alive state `s` and each of the inputs Left, Right, RRot, LRot,
`step` is defined and is gravity applied to the outcome of the move: the
candidate is `s` shifted by `(-1, 0)`, by `(+1, 0)`, or with the block
rotated clockwise or counter-clockwise; the candidate is replaced by `s` when
it collides; gravity then tests and shifts the state the move produced. -/
theorem step_is_gravity_after_move (h : Headers Block Gen) (fuel : Nat) (s : State Block Gen)
    (hs : s.playerState = PlayerState.Alive) :
    step h fuel Input.Left s
        = some (gravityOutcome h (moveOutcome h s (shifted s (-1) 0)))
    ∧ step h fuel Input.Right s
        = some (gravityOutcome h (moveOutcome h s (shifted s 1 0)))
    ∧ step h fuel Input.RRot s
        = some (gravityOutcome h (moveOutcome h s { s with block := h.rotateCw s.block }))
    ∧ step h fuel Input.LRot s
        = some (gravityOutcome h (moveOutcome h s { s with block := h.rotateCcw s.block })) := by
  refine ⟨?_, ?_, ?_, ?_⟩
  · rw [step_Alive_of_ne_Up h fuel _ s hs (by decide), move_Left, Option.map_some',
      Down_eq_gravityOutcome]
  · rw [step_Alive_of_ne_Up h fuel _ s hs (by decide), move_Right, Option.map_some',
      Down_eq_gravityOutcome]
  · rw [step_Alive_of_ne_Up h fuel _ s hs (by decide), move_RRot, Option.map_some',
      Down_eq_gravityOutcome]
  · rw [step_Alive_of_ne_Up h fuel _ s hs (by decide), move_LRot, Option.map_some',
      Down_eq_gravityOutcome]

/-- Witness of C1 at the square in the empty 4 by 4 world. -/
theorem step_is_gravity_after_move_witness :
    squareStart.playerState = PlayerState.Alive
    ∧ (step sample 0 Input.Left squareStart
        = some (gravityOutcome sample (moveOutcome sample squareStart (shifted squareStart (-1) 0)))
      ∧ step sample 0 Input.Right squareStart
        = some (gravityOutcome sample (moveOutcome sample squareStart (shifted squareStart 1 0)))
      ∧ step sample 0 Input.RRot squareStart
        = some (gravityOutcome sample (moveOutcome sample squareStart
            { squareStart with block := sample.rotateCw squareStart.block }))
      ∧ step sample 0 Input.LRot squareStart
        = some (gravityOutcome sample (moveOutcome sample squareStart
            { squareStart with block := sample.rotateCcw squareStart.block }))) :=
  ⟨rfl, step_is_gravity_after_move sample 0 squareStart rfl⟩

/-! ## Lemmas on the hard drop -/

theorem below_eq_shifted (s : State Block Gen) : below s = shifted s 0 1 := by
  simp [below, shifted, State.set_position, Position.add]

theorem shifted_zero (s : State Block Gen) : shifted s 0 0 = s := by
  simp [shifted]

theorem shifted_shifted (s : State Block Gen) (a b : Int) :
    shifted (shifted s 0 a) 0 b = shifted s 0 (a + b) := by
  simp [shifted, add_assoc]

theorem shifted_below (s : State Block Gen) (n : Nat) :
    shifted (below s) 0 (n : Int) = shifted s 0 ((n + 1 : Nat) : Int) := by
  rw [below_eq_shifted, shifted_shifted]
  congr 1
  push_cast
  ring

/-- A result of `Drop` is the start state moved down by some `n` rows, with
`n` below the fuel; row `n + 1` collides and rows `1` to `n` do not. -/
theorem Drop_some (h : Headers Block Gen) :
    ∀ (fuel : Nat) (s r : State Block Gen), Drop h fuel s = some r →
      ∃ n : Nat, n < fuel ∧ r = shifted s 0 (n : Int)
        ∧ collides h (shifted s 0 ((n + 1 : Nat) : Int)) = true
        ∧ ∀ j : Nat, j < n → collides h (shifted s 0 ((j + 1 : Nat) : Int)) = false := by
  intro fuel
  induction fuel with
  | zero => intro s r hr; simp [Drop] at hr
  | succ fuel ih =>
    intro s r hr
    by_cases hc : collides h (below s) = true
    · refine ⟨0, Nat.succ_pos fuel, ?_, ?_, ?_⟩
      · simp [Drop, hc] at hr
        simp [shifted_zero, hr]
      · simpa [below_eq_shifted] using hc
      · intro j hj
        exact absurd hj (Nat.not_lt_zero j)
    · have hcf : collides h (below s) = false := by simpa using hc
      have hr2 : Drop h fuel (below s) = some r := by simpa [Drop, hcf] using hr
      obtain ⟨n, hn, hrn, hcol, hfree⟩ := ih (below s) r hr2
      refine ⟨n + 1, Nat.succ_lt_succ hn, ?_, ?_, ?_⟩
      · rw [hrn, shifted_below]
      · rw [← shifted_below]
        exact hcol
      · intro j hj
        cases j with
        | zero => simpa [below_eq_shifted] using hcf
        | succ j =>
          rw [← shifted_below]
          exact hfree j (Nat.lt_of_succ_lt_succ hj)

/-- When row `n + 1` below `s` is the first colliding one, `Drop` returns the
state `n` rows below `s` as soon as the fuel exceeds `n`. -/
theorem Drop_of_first (h : Headers Block Gen) :
    ∀ (n : Nat) (s : State Block Gen) (fuel : Nat), n < fuel →
      collides h (shifted s 0 ((n + 1 : Nat) : Int)) = true →
      (∀ j : Nat, j < n → collides h (shifted s 0 ((j + 1 : Nat) : Int)) = false) →
      Drop h fuel s = some (shifted s 0 (n : Int)) := by
  intro n
  induction n with
  | zero =>
    intro s fuel hf hcol _
    obtain ⟨f, rfl⟩ : ∃ f, fuel = f + 1 := ⟨fuel - 1, by omega⟩
    have hc : collides h (below s) = true := by simpa [below_eq_shifted] using hcol
    simp [Drop, hc, shifted_zero]
  | succ n ih =>
    intro s fuel hf hcol hfree
    obtain ⟨f, rfl⟩ : ∃ f, fuel = f + 1 := ⟨fuel - 1, by omega⟩
    have hc : collides h (below s) = false := by
      simpa [below_eq_shifted] using hfree 0 (Nat.succ_pos n)
    have hrec := ih (below s) f (by omega) (by rw [shifted_below]; exact hcol)
      (fun j hj => by rw [shifted_below]; exact hfree (j + 1) (Nat.succ_lt_succ hj))
    rw [shifted_below] at hrec
    simp [Drop, hc, hrec]

/-- The hard drop changes the position only, and keeps the column. -/
theorem HardDrop_frame (h : Headers Block Gen) (fuel : Nat) (s r : State Block Gen)
    (hr : HardDrop h fuel s = some r) :
    r.playerState = s.playerState ∧ r.score = s.score ∧ r.delay = s.delay
      ∧ r.block = s.block ∧ r.world = s.world ∧ r.random = s.random
      ∧ r.position.x = s.position.x := by
  obtain ⟨n, -, rfl, -, -⟩ := Drop_some h fuel s r hr
  simp [shifted]

/-! ## C2: the hard drop step locks the piece and spawns the next one -/

/-- C2: for an Alive state `s` on which the hard drop returns `r`,
`step(Up, s)` is defined, its world is `buffer_draw_grid(r.position,
s.block.pieces, s.world)`, and its position is
`(floor(W/2) - floor(w/2), 0)` for the width `W` of that world and the width
`w` of its own active block. -/
theorem step_Up_locks_and_spawns (h : Headers Block Gen) (fuel : Nat) (s r : State Block Gen)
    (hs : s.playerState = PlayerState.Alive) (hr : HardDrop h fuel s = some r) :
    ∃ t, step h fuel Input.Up s = some t
      ∧ t.world = h.buffer_draw_grid r.position (h.pieces s.block) s.world
      ∧ t.position
          = ⟨((t.world.width / 2 : Nat) : Int) - (((h.pieces t.block).width / 2 : Nat) : Int),
             0⟩ := by
  obtain ⟨-, -, -, hb, hw, -, -⟩ := HardDrop_frame h fuel s r hr
  refine ⟨place_piece h r, ?_, ?_, ?_⟩
  · rw [step_Up_Alive h fuel s hs, hr, Option.map_some']
  · simp [place_piece, State.place_initial_piece, State.set_world, hb, hw]
  · simp [place_piece, State.place_initial_piece, State.set_world, spawnColumn, State.nextBlock]

/-- Witness of C2: the square dropped from row 0 of the empty 4 by 4 world
rests at row 2. -/
theorem step_Up_locks_and_spawns_witness :
    squareStart.playerState = PlayerState.Alive
    ∧ HardDrop sample 3 squareStart = some (shifted squareStart 0 2)
    ∧ ∃ t, step sample 3 Input.Up squareStart = some t
      ∧ t.world = sample.buffer_draw_grid (shifted squareStart 0 2).position
          (sample.pieces squareStart.block) squareStart.world
      ∧ t.position
          = ⟨((t.world.width / 2 : Nat) : Int)
              - (((sample.pieces t.block).width / 2 : Nat) : Int), 0⟩ :=
  ⟨rfl, by decide,
    step_Up_locks_and_spawns sample 3 squareStart (shifted squareStart 0 2) rfl (by decide)⟩

/-! ## C3: steps of a dead state -/

/-- C3: for a Dead state `s`, `step(input, s)` is `s` for every input other
than Up, while `step(Up, s)` is not defined: both partial specialisations of
`step` match it and neither is more specialised than the other. -/
theorem step_Dead (h : Headers Block Gen) (fuel : Nat) (s : State Block Gen)
    (hs : s.playerState = PlayerState.Dead) :
    (∀ input, input ≠ Input.Up → step h fuel input s = some s)
      ∧ step h fuel Input.Up s = none := by
  constructor
  · intro input hne
    simp [step, hs, selectStep_Dead input hne]
  · simp [step, hs, selectStep_Up_Dead]

/-- Witness of C3 at a dead state of the sample game. -/
theorem step_Dead_witness :
    deadSquare.playerState = PlayerState.Dead
    ∧ (∀ input, input ≠ Input.Up → step sample 3 input deadSquare = some deadSquare)
    ∧ step sample 3 Input.Up deadSquare = none :=
  ⟨rfl, step_Dead sample 3 deadSquare rfl⟩

/-! ## Lemmas on moves and gravity -/

theorem step_of_candidate (h : Headers Block Gen) (fuel : Nat) (input : Input)
    (s m : State Block Gen) (hs : s.playerState = PlayerState.Alive)
    (hm : IsCandidate h input s m) :
    step h fuel input s = some (gravityOutcome h (moveOutcome h s m)) := by
  rcases hm with ⟨rfl, rfl⟩ | ⟨rfl, rfl⟩ | ⟨rfl, rfl⟩ | ⟨rfl, rfl⟩
  · rw [step_Alive_of_ne_Up h fuel _ s hs (by decide), move_Left, Option.map_some',
      Down_eq_gravityOutcome]
  · rw [step_Alive_of_ne_Up h fuel _ s hs (by decide), move_Right, Option.map_some',
      Down_eq_gravityOutcome]
  · rw [step_Alive_of_ne_Up h fuel _ s hs (by decide), move_RRot, Option.map_some',
      Down_eq_gravityOutcome]
  · rw [step_Alive_of_ne_Up h fuel _ s hs (by decide), move_LRot, Option.map_some',
      Down_eq_gravityOutcome]

theorem collides_moveOutcome (h : Headers Block Gen) (s m : State Block Gen)
    (hfree : collides h s = false) : collides h (moveOutcome h s m) = false := by
  unfold moveOutcome
  split
  · exact hfree
  · rename_i hc
    simpa [collides] using hc

theorem collides_gravityOutcome (h : Headers Block Gen) (m : State Block Gen)
    (hfree : collides h m = false) : collides h (gravityOutcome h m) = false := by
  unfold gravityOutcome
  split
  · exact hfree
  · rename_i hc
    simpa [collides, shifted] using hc

theorem gravityOutcome_frame (h : Headers Block Gen) (m : State Block Gen) :
    (gravityOutcome h m).block = m.block ∧ (gravityOutcome h m).world = m.world
      ∧ (gravityOutcome h m).score = m.score ∧ (gravityOutcome h m).random = m.random
      ∧ (gravityOutcome h m).playerState = m.playerState
      ∧ (gravityOutcome h m).delay = m.delay := by
  unfold gravityOutcome
  split <;> simp [shifted]

/-! ## C4: a rejected move -/

/-- C4, as stated, fails: the square against the left wall of the empty world
is Alive, its placement one column to the left collides, and `step(Left, _)`
moves it one row down, so the position is not the one of the state. -/
theorem rejected_Left_still_falls :
    squareAtLeftWall.playerState = PlayerState.Alive
    ∧ sample.playfield_is_colliding (shifted squareAtLeftWall (-1) 0).position
        (sample.pieces (shifted squareAtLeftWall (-1) 0).block)
        (shifted squareAtLeftWall (-1) 0).world = true
    ∧ step sample 0 Input.Left squareAtLeftWall = some (shifted squareAtLeftWall 0 1)
    ∧ (shifted squareAtLeftWall 0 1).position ≠ squareAtLeftWall.position := by
  decide

/-- C4, amended: for an Alive state `s` and an input among Left, Right, LRot,
RRot whose candidate placement collides, `step(input, s)` is gravity applied
to `s`: block, world, score and generator are those of `s`, and the position
is the one of `s` shifted by `(0, +1)` when that placement does not collide,
and the one of `s` otherwise. -/
theorem rejected_move_is_gravity_only (h : Headers Block Gen) (fuel : Nat) (input : Input)
    (s m : State Block Gen) (hs : s.playerState = PlayerState.Alive)
    (hm : IsCandidate h input s m)
    (hcoll : h.playfield_is_colliding m.position (h.pieces m.block) m.world = true) :
    ∃ t, step h fuel input s = some t
      ∧ t.block = s.block ∧ t.world = s.world ∧ t.score = s.score ∧ t.random = s.random
      ∧ t.position
          = if h.playfield_is_colliding ⟨s.position.x, s.position.y + 1⟩
                (h.pieces s.block) s.world = true
            then s.position else ⟨s.position.x, s.position.y + 1⟩ := by
  have hmove : moveOutcome h s m = s := by simp [moveOutcome, hcoll]
  refine ⟨gravityOutcome h s, ?_, ?_⟩
  · rw [step_of_candidate h fuel input s m hs hm, hmove]
  · obtain ⟨hb, hw, hsc, hr, -, -⟩ := gravityOutcome_frame h s
    refine ⟨hb, hw, hsc, hr, ?_⟩
    unfold gravityOutcome
    split <;> simp [shifted]

/-- Witness of the amended C4 at the square against the left wall. -/
theorem rejected_move_is_gravity_only_witness :
    squareAtLeftWall.playerState = PlayerState.Alive
    ∧ IsCandidate sample Input.Left squareAtLeftWall (shifted squareAtLeftWall (-1) 0)
    ∧ sample.playfield_is_colliding (shifted squareAtLeftWall (-1) 0).position
        (sample.pieces (shifted squareAtLeftWall (-1) 0).block)
        (shifted squareAtLeftWall (-1) 0).world = true
    ∧ ∃ t, step sample 0 Input.Left squareAtLeftWall = some t
      ∧ t.block = squareAtLeftWall.block ∧ t.world = squareAtLeftWall.world
      ∧ t.score = squareAtLeftWall.score ∧ t.random = squareAtLeftWall.random
      ∧ t.position
          = if sample.playfield_is_colliding
                ⟨squareAtLeftWall.position.x, squareAtLeftWall.position.y + 1⟩
                (sample.pieces squareAtLeftWall.block) squareAtLeftWall.world = true
            then squareAtLeftWall.position
            else ⟨squareAtLeftWall.position.x, squareAtLeftWall.position.y + 1⟩ :=
  ⟨rfl, Or.inl ⟨rfl, rfl⟩, by decide,
    rejected_move_is_gravity_only sample 0 Input.Left squareAtLeftWall
      (shifted squareAtLeftWall (-1) 0) rfl (Or.inl ⟨rfl, rfl⟩) (by decide)⟩

/-! ## C5: non-collision of the active piece -/

/-- C5, as stated, fails for Up: the square on top of the stack is Alive and
does not collide; the hard drop locks it where it is, in rows 0 and 1, and
the flat bar spawned at column 0 of row 0 collides with it. -/
theorem spawn_on_stack_collides :
    squareOnStack.playerState = PlayerState.Alive
    ∧ collides sample squareOnStack = false
    ∧ step sample 1 Input.Up squareOnStack
        = some ⟨PlayerState.Alive, 0, 0, ⟨0, 0⟩, SampleBlock.barFlat,
            ⟨[[o, X, X, o], [o, X, X, o], [o, X, X, o], [o, X, X, o]]⟩, ⟨12346⟩⟩
    ∧ collides sample
        ⟨PlayerState.Alive, 0, 0, ⟨0, 0⟩, SampleBlock.barFlat,
          ⟨[[o, X, X, o], [o, X, X, o], [o, X, X, o], [o, X, X, o]]⟩, ⟨12346⟩⟩ = true := by
  decide

/-- C5, amended: for an Alive state `s` whose piece does not collide, the
piece of `step(input, s)` does not collide for every input among Left,
Right, LRot, RRot.  For Up no collision test is made on the spawned piece:
when the hard drop returns `r`, the piece of `step(Up, s)` collides exactly
when the next block, at the spawn position, collides with the world into
which the dropped piece was drawn. -/
theorem noncollision_moves_and_unchecked_spawn (h : Headers Block Gen) (fuel : Nat)
    (s : State Block Gen) (hs : s.playerState = PlayerState.Alive)
    (hfree : h.playfield_is_colliding s.position (h.pieces s.block) s.world = false) :
    (∀ input m, IsCandidate h input s m →
        ∃ t, step h fuel input s = some t
          ∧ h.playfield_is_colliding t.position (h.pieces t.block) t.world = false)
    ∧ (∀ r, HardDrop h fuel s = some r →
        ∃ t, step h fuel Input.Up s = some t
          ∧ h.playfield_is_colliding t.position (h.pieces t.block) t.world
            = h.playfield_is_colliding
                ⟨((t.world.width / 2 : Nat) : Int)
                  - (((h.pieces (h.value (h.next s.random))).width / 2 : Nat) : Int), 0⟩
                (h.pieces (h.value (h.next s.random)))
                (h.buffer_draw_grid r.position (h.pieces s.block) s.world)) := by
  constructor
  · intro input m hm
    refine ⟨gravityOutcome h (moveOutcome h s m), step_of_candidate h fuel input s m hs hm, ?_⟩
    exact collides_gravityOutcome h _ (collides_moveOutcome h s m hfree)
  · intro r hr
    obtain ⟨-, -, -, hb, hw, hrand, -⟩ := HardDrop_frame h fuel s r hr
    refine ⟨place_piece h r, ?_, ?_⟩
    · rw [step_Up_Alive h fuel s hs, hr, Option.map_some']
    · simp [place_piece, State.place_initial_piece, State.set_world, spawnColumn,
        State.nextBlock, hb, hw, hrand]

/-- Witness of the amended C5 at the square in the empty 4 by 4 world. -/
theorem noncollision_moves_and_unchecked_spawn_witness :
    squareStart.playerState = PlayerState.Alive
    ∧ sample.playfield_is_colliding squareStart.position (sample.pieces squareStart.block)
        squareStart.world = false
    ∧ IsCandidate sample Input.Right squareStart (shifted squareStart 1 0)
    ∧ ∃ t, step sample 3 Input.Right squareStart = some t
        ∧ sample.playfield_is_colliding t.position (sample.pieces t.block) t.world = false :=
  ⟨rfl, by decide, Or.inr (Or.inl ⟨rfl, rfl⟩),
    (noncollision_moves_and_unchecked_spawn sample 3 squareStart rfl (by decide)).1
      Input.Right (shifted squareStart 1 0) (Or.inr (Or.inl ⟨rfl, rfl⟩))⟩

/-! ## Lemmas on the playfield of the prose specification -/

theorem cellBlocked_of_below (world : Grid) (wx wy : Int)
    (hb : (world.height : Int) ≤ wy) : cellBlocked world wx wy = true := by
  simp [cellBlocked, hb]

theorem rowColliding_of_cell (world : Grid) (wy : Int) :
    ∀ (ps : List Pixel) (wx : Int) (cx : Nat),
      ps.getD cx Pixel.empty_pixel ≠ Pixel.empty_pixel →
      cellBlocked world (wx + cx) wy = true → rowColliding world wy wx ps = true := by
  intro ps
  induction ps with
  | nil => intro wx cx hne _; simp at hne
  | cons p ps ih =>
    intro wx cx hne hblk
    cases cx with
    | zero =>
      have hp : p ≠ Pixel.empty_pixel := by simpa using hne
      have hb : cellBlocked world wx wy = true := by simpa using hblk
      simp [rowColliding, hp, hb]
    | succ cx =>
      have hne2 : ps.getD cx Pixel.empty_pixel ≠ Pixel.empty_pixel := by simpa using hne
      have hb : cellBlocked world (wx + 1 + (cx : Int)) wy = true := by
        have he : wx + 1 + (cx : Int) = wx + ((cx + 1 : Nat) : Int) := by push_cast; ring
        rw [he]; exact hblk
      simp [rowColliding, ih (wx + 1) cx hne2 hb]

theorem rowsColliding_of_cell (world : Grid) (wx : Int) :
    ∀ (rows : List (List Pixel)) (wy : Int) (cx cy : Nat),
      (rows.getD cy []).getD cx Pixel.empty_pixel ≠ Pixel.empty_pixel →
      cellBlocked world (wx + cx) (wy + cy) = true → rowsColliding world wx wy rows = true := by
  intro rows
  induction rows with
  | nil => intro wy cx cy hne _; simp at hne
  | cons r rs ih =>
    intro wy cx cy hne hblk
    cases cy with
    | zero =>
      have hr : r.getD cx Pixel.empty_pixel ≠ Pixel.empty_pixel := by simpa using hne
      have hb : cellBlocked world (wx + cx) wy = true := by simpa using hblk
      simp [rowsColliding, rowColliding_of_cell world wy r wx cx hr hb]
    | succ cy =>
      have hne2 : (rs.getD cy []).getD cx Pixel.empty_pixel ≠ Pixel.empty_pixel := by
        simpa using hne
      have hb : cellBlocked world (wx + cx) (wy + 1 + (cy : Int)) = true := by
        have he : wy + 1 + (cy : Int) = wy + ((cy + 1 : Nat) : Int) := by push_cast; ring
        rw [he]; exact hblk
      simp [rowsColliding, ih (wy + 1) cx cy hne2 hb]

/-- In the playfield of the prose specification, a placement with an occupied
cell below the bottom bound collides. -/
theorem playfield_is_colliding_of_below (p : Position) (pieces world : Grid) (cx cy : Nat)
    (hocc : pieces.occupied cx cy = true) (hb : (world.height : Int) ≤ p.y + cy) :
    playfield_is_colliding p pieces world = true := by
  have hne : (pieces.rows.getD cy []).getD cx Pixel.empty_pixel ≠ Pixel.empty_pixel := by
    simpa [Grid.occupied, Grid.get] using hocc
  exact rowsColliding_of_cell world p.x pieces.rows p.y cx cy hne
    (cellBlocked_of_below world _ _ hb)

/-! ## C6: the hard drop terminates -/

/-- C6: when the active block of `s` has an occupied cell and every placement
with an occupied cell at or below row `height` of the world collides, the
recursion `HardDrop<s>::Drop` returns: there is `n`, at most the world height
plus the distance of the start row above row 0, such that the hard drop
returns `s` moved down by `n` rows as soon as the fuel exceeds `n`. -/
theorem HardDrop_terminates (h : Headers Block Gen) (s : State Block Gen)
    (hocc : ∃ cx cy : Nat, (h.pieces s.block).occupied cx cy = true)
    (hbottom : ∀ (p : Position) (cx cy : Nat), (h.pieces s.block).occupied cx cy = true →
      (s.world.height : Int) ≤ p.y + cy →
      h.playfield_is_colliding p (h.pieces s.block) s.world = true) :
    ∃ n : Nat, n ≤ s.world.height + (-s.position.y).toNat
      ∧ ∀ fuel, n < fuel → HardDrop h fuel s = some (shifted s 0 (n : Int)) := by
  obtain ⟨cx, cy, hcell⟩ := hocc
  have hex : ∃ k : Nat, collides h (shifted s 0 ((k + 1 : Nat) : Int)) = true := by
    refine ⟨((s.world.height : Int) - s.position.y - cy - 1).toNat, ?_⟩
    have := hbottom (shifted s 0
      ((((s.world.height : Int) - s.position.y - cy - 1).toNat + 1 : Nat) : Int)).position
      cx cy hcell (by simp [shifted]; omega)
    simpa [collides, shifted] using this
  refine ⟨Nat.find hex, ?_, ?_⟩
  · have hle : Nat.find hex ≤ ((s.world.height : Int) - s.position.y - cy - 1).toNat := by
      apply Nat.find_min'
      have := hbottom (shifted s 0
        ((((s.world.height : Int) - s.position.y - cy - 1).toNat + 1 : Nat) : Int)).position
        cx cy hcell (by simp [shifted]; omega)
      simpa [collides, shifted] using this
    omega
  · intro fuel hf
    refine Drop_of_first h (Nat.find hex) s fuel hf (Nat.find_spec hex) ?_
    intro j hj
    have := Nat.find_min hex hj
    simpa using this

/-- Witness of C6: the square in the empty 4 by 4 world, with the playfield of
the prose specification. -/
theorem HardDrop_terminates_witness :
    (∃ cx cy : Nat, (sample.pieces squareStart.block).occupied cx cy = true)
    ∧ (∀ (p : Position) (cx cy : Nat), (sample.pieces squareStart.block).occupied cx cy = true →
        (squareStart.world.height : Int) ≤ p.y + cy →
        sample.playfield_is_colliding p (sample.pieces squareStart.block) squareStart.world
          = true)
    ∧ ∃ n : Nat, n ≤ squareStart.world.height + (-squareStart.position.y).toNat
      ∧ ∀ fuel, n < fuel → HardDrop sample fuel squareStart
          = some (shifted squareStart 0 (n : Int)) :=
  ⟨⟨0, 0, by decide⟩,
    fun p cx cy hocc hb => playfield_is_colliding_of_below p _ _ cx cy hocc hb,
    HardDrop_terminates sample squareStart ⟨0, 0, by decide⟩
      (fun p cx cy hocc hb => playfield_is_colliding_of_below p _ _ cx cy hocc hb)⟩

/-! ## C7: where the hard drop stops -/

/-- C7, as stated, fails: the square over the cavern does not collide at its
position, the hard drop returns it at row 1, on top of the full row 3, and
yet the square placed at row 4, inside the cavern, does not collide. -/
theorem hardDrop_stops_above_cavern :
    collides sample squareOverCavern = false
    ∧ HardDrop sample 2 squareOverCavern = some (shifted squareOverCavern 0 1)
    ∧ (shifted squareOverCavern 0 1).position.y < (shifted squareOverCavern 0 4).position.y
    ∧ (shifted squareOverCavern 0 4).position.x = squareOverCavern.position.x
    ∧ sample.playfield_is_colliding (shifted squareOverCavern 0 4).position
        (sample.pieces squareOverCavern.block) squareOverCavern.world = false := by
  decide

/-- C7, amended: for a state `s` whose piece does not collide at its position
and on which the hard drop returns `r`, `r` is `s` moved down by some `n`
rows, the piece collides at none of the rows from the one of `s` to the one
of `r`, and no lower row is reached by a descent through non-colliding
placements: for every `m > n` the piece collides at some row among the first
`m` rows below `s`. -/
theorem HardDrop_stops_at_first_obstacle (h : Headers Block Gen) (fuel : Nat)
    (s r : State Block Gen)
    (hfree : h.playfield_is_colliding s.position (h.pieces s.block) s.world = false)
    (hr : HardDrop h fuel s = some r) :
    ∃ n : Nat, r = shifted s 0 (n : Int)
      ∧ (∀ j : Nat, j ≤ n →
          h.playfield_is_colliding ⟨s.position.x, s.position.y + j⟩ (h.pieces s.block) s.world
            = false)
      ∧ (∀ m : Nat, n < m → ∃ j : Nat, j ≤ m ∧
          h.playfield_is_colliding ⟨s.position.x, s.position.y + j⟩ (h.pieces s.block) s.world
            = true) := by
  obtain ⟨n, -, hrn, hcol, hno⟩ := Drop_some h fuel s r hr
  refine ⟨n, hrn, ?_, ?_⟩
  · intro j hj
    cases j with
    | zero => simpa using hfree
    | succ j =>
      have := hno j (by omega)
      simpa [collides, shifted] using this
  · intro m hm
    refine ⟨n + 1, by omega, ?_⟩
    simpa [collides, shifted] using hcol

/-- Witness of the amended C7 at the square over the cavern. -/
theorem HardDrop_stops_at_first_obstacle_witness :
    sample.playfield_is_colliding squareOverCavern.position
        (sample.pieces squareOverCavern.block) squareOverCavern.world = false
    ∧ HardDrop sample 2 squareOverCavern = some (shifted squareOverCavern 0 1)
    ∧ ∃ n : Nat, shifted squareOverCavern 0 1 = shifted squareOverCavern 0 (n : Int)
      ∧ (∀ j : Nat, j ≤ n →
          sample.playfield_is_colliding
            ⟨squareOverCavern.position.x, squareOverCavern.position.y + j⟩
            (sample.pieces squareOverCavern.block) squareOverCavern.world = false)
      ∧ (∀ m : Nat, n < m → ∃ j : Nat, j ≤ m ∧
          sample.playfield_is_colliding
            ⟨squareOverCavern.position.x, squareOverCavern.position.y + j⟩
            (sample.pieces squareOverCavern.block) squareOverCavern.world = true) :=
  ⟨by decide, by decide,
    HardDrop_stops_at_first_obstacle sample 2 squareOverCavern (shifted squareOverCavern 0 1)
      (by decide) (by decide)⟩

/-! ## C8: the block and the generator after a hard drop -/

/-- C8, as stated, fails: the generator of the square start state has the
square as its current value, while the active block of `step(Up, _)` is the
flat bar, the value of the advanced generator. -/
theorem spawned_block_is_not_current_value :
    squareStart.playerState = PlayerState.Alive
    ∧ sample.value squareStart.random = SampleBlock.square
    ∧ (step sample 3 Input.Up squareStart).map (fun t => t.block) = some SampleBlock.barFlat
    ∧ SampleBlock.barFlat ≠ sample.value squareStart.random := by
  decide

/-- C8, amended: for an Alive state `s` on which the hard drop returns,
`step(Up, s)` is defined, its active block is the value of the advanced
generator (`s.random.next.value`, that is `s.nextBlock`), and its generator
is the generator of `s` advanced by exactly one (`s.random.next`). -/
theorem step_Up_block_and_generator (h : Headers Block Gen) (fuel : Nat)
    (s r : State Block Gen) (hs : s.playerState = PlayerState.Alive)
    (hr : HardDrop h fuel s = some r) :
    ∃ t, step h fuel Input.Up s = some t
      ∧ t.block = h.value (h.next s.random)
      ∧ t.random = h.next s.random := by
  obtain ⟨-, -, -, -, -, hrand, -⟩ := HardDrop_frame h fuel s r hr
  refine ⟨place_piece h r, ?_, ?_, ?_⟩
  · rw [step_Up_Alive h fuel s hs, hr, Option.map_some']
  · simp [place_piece, State.place_initial_piece, State.set_world, State.nextBlock, hrand]
  · simp [place_piece, State.place_initial_piece, State.set_world, hrand]

/-- Witness of the amended C8 at the square in the empty 4 by 4 world. -/
theorem step_Up_block_and_generator_witness :
    squareStart.playerState = PlayerState.Alive
    ∧ HardDrop sample 3 squareStart = some (shifted squareStart 0 2)
    ∧ ∃ t, step sample 3 Input.Up squareStart = some t
      ∧ t.block = sample.value (sample.next squareStart.random)
      ∧ t.random = sample.next squareStart.random :=
  ⟨rfl, by decide,
    step_Up_block_and_generator sample 3 squareStart (shifted squareStart 0 2) rfl
      (by decide)⟩

/-! ## C9 and C10: the initial state -/

/-- C9: `InitialState` has score 0, playerState Alive, delay 0, the world
`InitialWorld`, and the position `(floor(W/2) - floor(w/2), 0)` for the width
`W` of `InitialWorld` and the width `w` of its own active block. -/
theorem InitialState_fields (h : Headers Block Gen) :
    (InitialState h).score = 0
    ∧ (InitialState h).playerState = PlayerState.Alive
    ∧ (InitialState h).delay = 0
    ∧ (InitialState h).world = h.InitialWorld
    ∧ (InitialState h).position
        = ⟨((h.InitialWorld.width / 2 : Nat) : Int)
            - (((h.pieces (InitialState h).block).width / 2 : Nat) : Int), 0⟩ := by
  simp [InitialState, State.place_initial_piece, spawnColumn, State.nextBlock]

/-- C10, as stated, fails: in the sample game the first piece of the seeded
generator is the square, while the active block of `InitialState` is the flat
bar, and the generator of `InitialState` is not the seeded one. -/
theorem InitialState_skips_first_piece :
    sample.value sample.initialBlockGenerator = SampleBlock.square
    ∧ (InitialState sample).block = SampleBlock.barFlat
    ∧ (InitialState sample).block ≠ sample.value sample.initialBlockGenerator
    ∧ (InitialState sample).random ≠ sample.initialBlockGenerator := by
  decide

/-- C10, amended: the active block of `InitialState` is the second piece of
the seeded generator, `initialBlockGenerator::next::value`; the generator
held by `InitialState` is the seeded generator advanced once,
`initialBlockGenerator::next`, and the active block is the current value of
that generator. -/
theorem InitialState_block_and_generator (h : Headers Block Gen) :
    (InitialState h).block = h.value (h.next h.initialBlockGenerator)
    ∧ (InitialState h).random = h.next h.initialBlockGenerator
    ∧ (InitialState h).block = h.value (InitialState h).random := by
  simp [InitialState, State.place_initial_piece, State.nextBlock]

/-! ## Lemmas on the frame of a step -/

theorem candidate_frame (h : Headers Block Gen) (input : Input) (s m : State Block Gen)
    (hm : IsCandidate h input s m) :
    m.world = s.world ∧ m.random = s.random ∧ m.score = s.score
      ∧ m.playerState = s.playerState ∧ m.delay = s.delay := by
  rcases hm with ⟨-, rfl⟩ | ⟨-, rfl⟩ | ⟨-, rfl⟩ | ⟨-, rfl⟩ <;> simp [shifted]

theorem moveOutcome_frame (h : Headers Block Gen) (input : Input) (s m : State Block Gen)
    (hm : IsCandidate h input s m) :
    (moveOutcome h s m).world = s.world ∧ (moveOutcome h s m).random = s.random
      ∧ (moveOutcome h s m).score = s.score
      ∧ (moveOutcome h s m).playerState = s.playerState
      ∧ (moveOutcome h s m).delay = s.delay := by
  unfold moveOutcome
  split
  · simp
  · exact candidate_frame h input s m hm

theorem exists_candidate (h : Headers Block Gen) (input : Input) (s : State Block Gen)
    (hU : input ≠ Input.Up) (hO : input ≠ Input.Other) : ∃ m, IsCandidate h input s m := by
  cases input with
  | Left => exact ⟨_, Or.inl ⟨rfl, rfl⟩⟩
  | Right => exact ⟨_, Or.inr (Or.inl ⟨rfl, rfl⟩)⟩
  | RRot => exact ⟨_, Or.inr (Or.inr (Or.inl ⟨rfl, rfl⟩))⟩
  | LRot => exact ⟨_, Or.inr (Or.inr (Or.inr ⟨rfl, rfl⟩))⟩
  | Up => exact absurd rfl hU
  | Other => exact absurd rfl hO

theorem step_Other_Alive (h : Headers Block Gen) (fuel : Nat) (s : State Block Gen)
    (hs : s.playerState = PlayerState.Alive) : step h fuel Input.Other s = none := by
  rw [step_Alive_of_ne_Up h fuel _ s hs (by decide)]
  simp [move, move_block]

/-- Every result of a step with an input other than Up has the world, the
generator, the score, the player state and the delay of the state it was
made from. -/
theorem step_frame_of_ne_Up (h : Headers Block Gen) (fuel : Nat) (input : Input)
    (s t : State Block Gen) (hne : input ≠ Input.Up) (ht : step h fuel input s = some t) :
    t.world = s.world ∧ t.random = s.random ∧ t.score = s.score
      ∧ t.playerState = s.playerState ∧ t.delay = s.delay := by
  cases hp : s.playerState with
  | Dead =>
    have : step h fuel input s = some s := by simp [step, hp, selectStep_Dead input hne]
    rw [this] at ht
    cases ht
    rw [← hp]
    simp
  | Alive =>
    by_cases hO : input = Input.Other
    · subst hO
      rw [step_Other_Alive h fuel s hp] at ht
      cases ht
    · obtain ⟨m, hm⟩ := exists_candidate h input s hne hO
      rw [step_of_candidate h fuel input s m hp hm] at ht
      cases ht
      obtain ⟨-, gw, gs, gr, gp, gd⟩ := gravityOutcome_frame h (moveOutcome h s m)
      obtain ⟨mw, mr, ms, mp, md⟩ := moveOutcome_frame h input s m hm
      rw [← hp]
      exact ⟨gw.trans mw, gr.trans mr, gs.trans ms, gp.trans mp, gd.trans md⟩

/-- A step with one of the four move inputs is defined on every state. -/
theorem step_defined_of_move (h : Headers Block Gen) (fuel : Nat) (input : Input)
    (s : State Block Gen) (hU : input ≠ Input.Up) (hO : input ≠ Input.Other) :
    ∃ t, step h fuel input s = some t := by
  cases hp : s.playerState with
  | Dead => exact ⟨s, by simp [step, hp, selectStep_Dead input hU]⟩
  | Alive =>
    obtain ⟨m, hm⟩ := exists_candidate h input s hU hO
    exact ⟨_, step_of_candidate h fuel input s m hp hm⟩

/-! ## C11: inputs other than the four moves and Up -/

/-- C11, as stated, fails: on the Alive square of the empty world, `step`
with the input Other is not defined. -/
theorem step_Other_on_squareStart :
    squareStart.playerState = PlayerState.Alive
    ∧ move_block sample Input.Other squareStart = none
    ∧ step sample 3 Input.Other squareStart = none := by
  decide

/-- C11, amended: for an Alive state `s` and an input that is none of Left,
Right, RRot, LRot and Up, `move_block` has no definition, so neither
`move<input, s>` nor `step<input, s>` is defined; no gravity-only step
exists. -/
theorem step_undefined_of_other_input (h : Headers Block Gen) (fuel : Nat) (input : Input)
    (s : State Block Gen) (hs : s.playerState = PlayerState.Alive)
    (hL : input ≠ Input.Left) (hR : input ≠ Input.Right) (hRR : input ≠ Input.RRot)
    (hLR : input ≠ Input.LRot) (hU : input ≠ Input.Up) :
    move_block h input s = none ∧ move h input s = none ∧ step h fuel input s = none := by
  cases input with
  | Left => exact absurd rfl hL
  | Right => exact absurd rfl hR
  | RRot => exact absurd rfl hRR
  | LRot => exact absurd rfl hLR
  | Up => exact absurd rfl hU
  | Other => exact ⟨rfl, rfl, step_Other_Alive h fuel s hs⟩

/-- Witness of the amended C11 at the square in the empty 4 by 4 world. -/
theorem step_undefined_of_other_input_witness :
    squareStart.playerState = PlayerState.Alive
    ∧ Input.Other ≠ Input.Left ∧ Input.Other ≠ Input.Right ∧ Input.Other ≠ Input.RRot
    ∧ Input.Other ≠ Input.LRot ∧ Input.Other ≠ Input.Up
    ∧ move_block sample Input.Other squareStart = none
    ∧ move sample Input.Other squareStart = none
    ∧ step sample 3 Input.Other squareStart = none :=
  ⟨rfl, by decide, by decide, by decide, by decide, by decide,
    step_undefined_of_other_input sample 3 Input.Other squareStart rfl
      (by decide) (by decide) (by decide) (by decide) (by decide)⟩

/-! ## C12: what a step other than the hard drop keeps -/

/-- C12: for every state `s` and every input other than Up, every result of
`step(input, s)` has the world, generator, score, playerState and delay of
`s`; and the step is defined for Left, Right, RRot, LRot on every state and
for every input other than Up on a Dead state. -/
theorem step_keeps_world_and_generator (h : Headers Block Gen) (fuel : Nat) (input : Input)
    (s : State Block Gen) (hne : input ≠ Input.Up) :
    (∀ t, step h fuel input s = some t →
        t.world = s.world ∧ t.random = s.random ∧ t.score = s.score
          ∧ t.playerState = s.playerState ∧ t.delay = s.delay)
    ∧ (input ≠ Input.Other ∨ s.playerState = PlayerState.Dead →
        ∃ t, step h fuel input s = some t) := by
  refine ⟨fun t ht => step_frame_of_ne_Up h fuel input s t hne ht, ?_⟩
  rintro (hO | hD)
  · exact step_defined_of_move h fuel input s hne hO
  · exact ⟨s, by simp [step, hD, selectStep_Dead input hne]⟩

/-- Witness of C12: the square of the empty world, moved to the right. -/
theorem step_keeps_world_and_generator_witness :
    Input.Right ≠ Input.Up
    ∧ step sample 3 Input.Right squareStart = some (shifted squareStart 1 1)
    ∧ (∀ t, step sample 3 Input.Right squareStart = some t →
        t.world = squareStart.world ∧ t.random = squareStart.random
          ∧ t.score = squareStart.score ∧ t.playerState = squareStart.playerState
          ∧ t.delay = squareStart.delay)
    ∧ (Input.Right ≠ Input.Other ∨ squareStart.playerState = PlayerState.Dead →
        ∃ t, step sample 3 Input.Right squareStart = some t) :=
  ⟨by decide, by decide,
    step_keeps_world_and_generator sample 3 Input.Right squareStart (by decide)⟩

/-! ## Lemmas on the hard drop step and the ghost -/

theorem step_Up_some (h : Headers Block Gen) (fuel : Nat) (s t : State Block Gen)
    (hs : s.playerState = PlayerState.Alive) (ht : step h fuel Input.Up s = some t) :
    ∃ r, HardDrop h fuel s = some r ∧ t = place_piece h r := by
  rw [step_Up_Alive h fuel s hs] at ht
  cases hd : HardDrop h fuel s with
  | none => simp [hd] at ht
  | some r => exact ⟨r, rfl, by simpa [hd] using ht.symm⟩

theorem place_piece_block (h : Headers Block Gen) (r : State Block Gen) :
    (place_piece h r).block = h.value (h.next r.random) := by
  simp [place_piece, State.place_initial_piece, State.set_world, State.nextBlock]

theorem ToGhostPiece_ne_empty (p : Pixel) :
    ToGhostPiece p ≠ Pixel.empty_pixel ↔ p ≠ Pixel.empty_pixel := by
  unfold ToGhostPiece
  split <;> simp_all

theorem fmap_t_get (f : Pixel → Pixel) (hf : f Pixel.empty_pixel = Pixel.empty_pixel)
    (g : Grid) (x y : Nat) : (fmap_t f g).get x y = f (g.get x y) := by
  unfold fmap_t Grid.get
  have hrow : (List.map (fun r => List.map f r) g.rows).getD y []
      = List.map f (g.rows.getD y []) := by
    have := List.getD_map (f := fun r => List.map f r) (l := g.rows) (d := []) (n := y)
    simpa using this
  rw [hrow]
  have := List.getD_map (f := f) (l := g.rows.getD y []) (d := Pixel.empty_pixel) (n := x)
  rw [hf] at this
  exact this

theorem ghost_occupied (g : Grid) (x y : Nat) :
    (fmap_t ToGhostPiece g).occupied x y = g.occupied x y := by
  unfold Grid.occupied
  rw [fmap_t_get ToGhostPiece (by simp [ToGhostPiece]) g x y]
  exact decide_eq_decide.mpr (ToGhostPiece_ne_empty (g.get x y))

/-! ## C13: the next block of the side panel -/

/-- C13: for an Alive state `s`, the active block of every result of
`step(Up, s)` is `s.nextBlock`, whose shape is what `Printer::next_block`
draws in the side panel; `step(Up, s)` is defined when the hard drop
returns; and every result of a step with an input other than Up has the
same `nextBlock` as `s`. -/
theorem nextBlock_is_spawned_by_next_lock (h : Headers Block Gen) (fuel : Nat)
    (initial_buffer : Grid) (s : State Block Gen) (hs : s.playerState = PlayerState.Alive) :
    (∀ t, step h fuel Input.Up s = some t →
        t.block = s.nextBlock h
          ∧ Printer.next_block h initial_buffer s
            = h.buffer_draw_grid ⟨(s.world.width : Int) + 2 + 2, 2⟩ (h.pieces t.block)
                initial_buffer)
    ∧ (∀ r, HardDrop h fuel s = some r → ∃ t, step h fuel Input.Up s = some t)
    ∧ (∀ input t, input ≠ Input.Up → step h fuel input s = some t →
        t.nextBlock h = s.nextBlock h) := by
  refine ⟨?_, ?_, ?_⟩
  · intro t ht
    obtain ⟨r, hr, rfl⟩ := step_Up_some h fuel s t hs ht
    obtain ⟨-, -, -, -, -, hrand, -⟩ := HardDrop_frame h fuel s r hr
    have hb : (place_piece h r).block = s.nextBlock h := by
      rw [place_piece_block, hrand]; rfl
    refine ⟨hb, ?_⟩
    rw [hb]
    rfl
  · intro r hr
    exact ⟨place_piece h r, by rw [step_Up_Alive h fuel s hs, hr, Option.map_some']⟩
  · intro input t hne ht
    obtain ⟨-, hrand, -, -, -⟩ := step_frame_of_ne_Up h fuel input s t hne ht
    simp [State.nextBlock, hrand]

/-- Witness of C13 at the square in the empty 4 by 4 world. -/
theorem nextBlock_is_spawned_by_next_lock_witness :
    squareStart.playerState = PlayerState.Alive
    ∧ (step sample 3 Input.Up squareStart).map (fun t => t.block) = some SampleBlock.barFlat
    ∧ squareStart.nextBlock sample = SampleBlock.barFlat
    ∧ (∀ t, step sample 3 Input.Up squareStart = some t →
        t.block = squareStart.nextBlock sample
          ∧ Printer.next_block sample emptyWorld4 squareStart
            = sample.buffer_draw_grid ⟨(squareStart.world.width : Int) + 2 + 2, 2⟩
                (sample.pieces t.block) emptyWorld4)
    ∧ (∀ r, HardDrop sample 3 squareStart = some r →
        ∃ t, step sample 3 Input.Up squareStart = some t)
    ∧ (∀ input t, input ≠ Input.Up → step sample 3 input squareStart = some t →
        t.nextBlock sample = squareStart.nextBlock sample) :=
  ⟨rfl, by decide, by decide,
    nextBlock_is_spawned_by_next_lock sample 3 emptyWorld4 squareStart rfl⟩

/-! ## C14: the ghost preview -/

/-- C14: for an Alive state `s` whose `Printer::ghostState` is `r`, `r` has
the block, the world and the x coordinate of `s`; `step(Up, s)` is defined
and its world is `buffer_draw_grid(r.position, s.block.pieces, s.world)`; the
ghost is drawn at `Position<1, 1>` plus the position of `r`; and the ghost
shape has an occupied cell exactly where `s.block.pieces` has one. -/
theorem ghost_is_where_hard_drop_locks (h : Headers Block Gen) (fuel : Nat)
    (block_buffer : Grid) (s r : State Block Gen)
    (hs : s.playerState = PlayerState.Alive) (hg : Printer.ghostState h fuel s = some r) :
    r.block = s.block ∧ r.world = s.world ∧ r.position.x = s.position.x
    ∧ (∃ t, step h fuel Input.Up s = some t
        ∧ t.world = h.buffer_draw_grid r.position (h.pieces s.block) s.world)
    ∧ Printer.buffer h block_buffer r
        = h.buffer_draw_grid ⟨1 + r.position.x, 1 + r.position.y⟩
            (Printer.ghostPiece h r) block_buffer
    ∧ (∀ x y, (Printer.ghostPiece h r).occupied x y = (h.pieces s.block).occupied x y) := by
  have hr : HardDrop h fuel s = some r := hg
  obtain ⟨-, -, -, hb, hw, -, hx⟩ := HardDrop_frame h fuel s r hr
  refine ⟨hb, hw, hx, ⟨place_piece h r, ?_, ?_⟩, rfl, ?_⟩
  · rw [step_Up_Alive h fuel s hs, hr, Option.map_some']
  · simp [place_piece, State.place_initial_piece, State.set_world, hb, hw]
  · intro x y
    unfold Printer.ghostPiece
    rw [hb]
    exact ghost_occupied (h.pieces s.block) x y

/-- Witness of C14 at the square in the empty 4 by 4 world, whose ghost is at
row 2. -/
theorem ghost_is_where_hard_drop_locks_witness :
    squareStart.playerState = PlayerState.Alive
    ∧ Printer.ghostState sample 3 squareStart = some (shifted squareStart 0 2)
    ∧ (shifted squareStart 0 2).block = squareStart.block
    ∧ (shifted squareStart 0 2).world = squareStart.world
    ∧ (shifted squareStart 0 2).position.x = squareStart.position.x
    ∧ (∃ t, step sample 3 Input.Up squareStart = some t
        ∧ t.world = sample.buffer_draw_grid (shifted squareStart 0 2).position
            (sample.pieces squareStart.block) squareStart.world)
    ∧ Printer.buffer sample emptyWorld4 (shifted squareStart 0 2)
        = sample.buffer_draw_grid
            ⟨1 + (shifted squareStart 0 2).position.x, 1 + (shifted squareStart 0 2).position.y⟩
            (Printer.ghostPiece sample (shifted squareStart 0 2)) emptyWorld4
    ∧ (∀ x y, (Printer.ghostPiece sample (shifted squareStart 0 2)).occupied x y
        = (sample.pieces squareStart.block).occupied x y) :=
  ⟨rfl, by decide,
    ghost_is_where_hard_drop_locks sample 3 emptyWorld4 squareStart (shifted squareStart 0 2)
      rfl (by decide)⟩

/-! ## C15: a sideways move against an obstacle -/

/-- C15: for an Alive state `s` whose block placed at `s.position + (-1, 0)`
collides with the world, `step(Left, s)` is defined and has the x coordinate
and the block of `s`; and the same for Right with `(+1, 0)`. -/
theorem blocked_sideways_move_keeps_column (h : Headers Block Gen) (fuel : Nat)
    (input : Input) (dx : Int) (s : State Block Gen)
    (hs : s.playerState = PlayerState.Alive)
    (hin : (input = Input.Left ∧ dx = -1) ∨ (input = Input.Right ∧ dx = 1))
    (hcoll : h.playfield_is_colliding ⟨s.position.x + dx, s.position.y⟩ (h.pieces s.block)
      s.world = true) :
    ∃ t, step h fuel input s = some t ∧ t.position.x = s.position.x ∧ t.block = s.block := by
  have hm : IsCandidate h input s (shifted s dx 0) := by
    rcases hin with ⟨rfl, rfl⟩ | ⟨rfl, rfl⟩
    · exact Or.inl ⟨rfl, rfl⟩
    · exact Or.inr (Or.inl ⟨rfl, rfl⟩)
  have hmove : moveOutcome h s (shifted s dx 0) = s := by
    simp [moveOutcome, shifted, hcoll]
  refine ⟨gravityOutcome h s, ?_, ?_, (gravityOutcome_frame h s).1⟩
  · rw [step_of_candidate h fuel input s _ hs hm, hmove]
  · unfold gravityOutcome
    split <;> simp [shifted]

/-- Witness of C15 at the square against the left wall of the empty world. -/
theorem blocked_sideways_move_keeps_column_witness :
    squareAtLeftWall.playerState = PlayerState.Alive
    ∧ sample.playfield_is_colliding
        ⟨squareAtLeftWall.position.x + (-1), squareAtLeftWall.position.y⟩
        (sample.pieces squareAtLeftWall.block) squareAtLeftWall.world = true
    ∧ ∃ t, step sample 0 Input.Left squareAtLeftWall = some t
      ∧ t.position.x = squareAtLeftWall.position.x ∧ t.block = squareAtLeftWall.block :=
  ⟨rfl, by decide,
    blocked_sideways_move_keeps_column sample 0 Input.Left (-1) squareAtLeftWall rfl
      (Or.inl ⟨rfl, rfl⟩) (by decide)⟩

/-! ## C16: score and player state -/

theorem place_piece_score_playerState (h : Headers Block Gen) (r : State Block Gen) :
    (place_piece h r).score = r.score ∧ (place_piece h r).playerState = r.playerState := by
  simp [place_piece, State.place_initial_piece, State.set_world]

/-- Every result of a step has the score and the player state of the state
it was made from. -/
theorem step_score_playerState (h : Headers Block Gen) (fuel : Nat) (input : Input)
    (s t : State Block Gen) (ht : step h fuel input s = some t) :
    t.score = s.score ∧ t.playerState = s.playerState := by
  by_cases hU : input = Input.Up
  · subst hU
    cases hp : s.playerState with
    | Dead => simp [step, hp, selectStep_Up_Dead] at ht
    | Alive =>
      obtain ⟨r, hr, rfl⟩ := step_Up_some h fuel s t hp ht
      obtain ⟨hps, hsc, -, -, -, -, -⟩ := HardDrop_frame h fuel s r hr
      obtain ⟨psc, pps⟩ := place_piece_score_playerState h r
      rw [← hp]
      exact ⟨psc.trans hsc, pps.trans hps⟩
  · obtain ⟨-, -, hsc, hps, -⟩ := step_frame_of_ne_Up h fuel input s t hU ht
    exact ⟨hsc, hps⟩

theorem steps_score_playerState (h : Headers Block Gen) :
    ∀ (inputs : List (Nat × Input)) (s t : State Block Gen), steps h inputs s = some t →
      t.score = s.score ∧ t.playerState = s.playerState := by
  intro inputs
  induction inputs with
  | nil =>
    intro s t ht
    simp [steps] at ht
    subst ht
    exact ⟨rfl, rfl⟩
  | cons a rest ih =>
    intro s t ht
    obtain ⟨fuel, input⟩ := a
    cases hstep : step h fuel input s with
    | none => simp [steps, hstep] at ht
    | some u =>
      have hrest : steps h rest u = some t := by simpa [steps, hstep] using ht
      obtain ⟨h1, h2⟩ := ih u t hrest
      obtain ⟨h3, h4⟩ := step_score_playerState h fuel input s u hstep
      exact ⟨h1.trans h3, h2.trans h4⟩

/-- C16: every result of `step(input, s)`, for every state and every input,
has the score and the playerState of `s`, so the score does not decrease;
and every state reached from `InitialState` by a finite sequence of inputs is
Alive with score 0. -/
theorem no_step_changes_score_or_playerState (h : Headers Block Gen) :
    (∀ (fuel : Nat) (input : Input) (s t : State Block Gen), step h fuel input s = some t →
        t.score = s.score ∧ t.playerState = s.playerState ∧ s.score ≤ t.score)
    ∧ (∀ (inputs : List (Nat × Input)) (t : State Block Gen),
        steps h inputs (InitialState h) = some t →
        t.playerState = PlayerState.Alive ∧ t.score = 0 ∧ t.playerState ≠ PlayerState.Dead) := by
  constructor
  · intro fuel input s t ht
    obtain ⟨hsc, hps⟩ := step_score_playerState h fuel input s t ht
    exact ⟨hsc, hps, le_of_eq hsc.symm⟩
  · intro inputs t ht
    obtain ⟨hsc, hps⟩ := steps_score_playerState h inputs (InitialState h) t ht
    have hA : t.playerState = PlayerState.Alive := by
      rw [hps]; simp [InitialState, State.place_initial_piece]
    refine ⟨hA, ?_, ?_⟩
    · rw [hsc]; simp [InitialState, State.place_initial_piece]
    · rw [hA]; decide

/-- Witness of C16: a hard drop and a Left from the initial state of the
sample game. -/
theorem no_step_changes_score_or_playerState_witness :
    steps sample [(4, Input.Up), (0, Input.Left)] (InitialState sample)
        = some ⟨PlayerState.Alive, 0, 0, ⟨2, 0⟩, SampleBlock.barUpright,
            ⟨[[o, o, o, o], [o, o, o, o], [o, o, o, o], [X, X, X, X]]⟩, ⟨12347⟩⟩
    ∧ (⟨PlayerState.Alive, 0, 0, ⟨2, 0⟩, SampleBlock.barUpright,
            ⟨[[o, o, o, o], [o, o, o, o], [o, o, o, o], [X, X, X, X]]⟩, ⟨12347⟩⟩ :
          State SampleBlock LinearGenerator).playerState = PlayerState.Alive :=
  ⟨by decide,
    ((no_step_changes_score_or_playerState sample).2 [(4, Input.Up), (0, Input.Left)] _
      (by decide)).1⟩

/-! ## C17: the result of the hard drop -/

/-- C17: when the hard drop of `s` returns `r`, `r` has the block, world,
generator and x coordinate of `s` and `r.y >= s.y`; the piece placed one row
below `r` collides; the piece collides at no row `y` with `s.y < y <= r.y`;
and when the piece does not collide at `s.position`, it does not collide at
`r.position`. -/
theorem HardDrop_result (h : Headers Block Gen) (fuel : Nat) (s r : State Block Gen)
    (hr : HardDrop h fuel s = some r) :
    r.block = s.block ∧ r.world = s.world ∧ r.random = s.random
    ∧ r.position.x = s.position.x ∧ s.position.y ≤ r.position.y
    ∧ h.playfield_is_colliding ⟨r.position.x, r.position.y + 1⟩ (h.pieces r.block) r.world
        = true
    ∧ (∀ y : Int, s.position.y < y → y ≤ r.position.y →
        h.playfield_is_colliding ⟨s.position.x, y⟩ (h.pieces s.block) s.world = false)
    ∧ (h.playfield_is_colliding s.position (h.pieces s.block) s.world = false →
        h.playfield_is_colliding r.position (h.pieces r.block) r.world = false) := by
  obtain ⟨n, -, rfl, hcol, hno⟩ := Drop_some h fuel s r hr
  have hrow : ∀ y : Int, s.position.y < y → y ≤ s.position.y + n →
      h.playfield_is_colliding ⟨s.position.x, y⟩ (h.pieces s.block) s.world = false := by
    intro y h1 h2
    obtain ⟨j, rfl⟩ : ∃ j : Nat, y = s.position.y + ((j + 1 : Nat) : Int) :=
      ⟨(y - s.position.y - 1).toNat, by push_cast; omega⟩
    have hj := hno j (by push_cast at h2; omega)
    simpa [collides, shifted] using hj
  refine ⟨rfl, rfl, rfl, by simp [shifted], by simp [shifted], ?_, ?_, ?_⟩
  · have := hcol
    simp only [collides, shifted] at this
    simp only [shifted]
    rw [← this]
    congr 2
    push_cast
    ring
  · intro y h1 h2
    exact hrow y h1 (by simpa [shifted] using h2)
  · intro hfree
    cases n with
    | zero => simpa [shifted] using hfree
    | succ n =>
      have := hrow (s.position.y + ((n + 1 : Nat) : Int)) (by push_cast; omega) (le_refl _)
      simpa [shifted] using this

/-- Witness of C17: the square dropped from row 0 of the empty 4 by 4 world
rests at row 2. -/
theorem HardDrop_result_witness :
    HardDrop sample 3 squareStart = some (shifted squareStart 0 2)
    ∧ (shifted squareStart 0 2).position.y = 2
    ∧ sample.playfield_is_colliding
        ⟨(shifted squareStart 0 2).position.x, (shifted squareStart 0 2).position.y + 1⟩
        (sample.pieces (shifted squareStart 0 2).block) (shifted squareStart 0 2).world = true :=
  ⟨by decide, by decide,
    (HardDrop_result sample 3 squareStart (shifted squareStart 0 2) (by decide)).2.2.2.2.2.1⟩

/-! ## C18: moves and gravity keep the piece free -/

/-- C18: for an Alive state `s` whose block placed at `s.position` does not
collide, and an input among Left, Right, LRot, RRot, `step(input, s)` is
defined, its world is the world of `s`, and its block placed at its position
does not collide with that world. -/
theorem moves_keep_noncollision (h : Headers Block Gen) (fuel : Nat) (input : Input)
    (s : State Block Gen) (hs : s.playerState = PlayerState.Alive)
    (hfree : h.playfield_is_colliding s.position (h.pieces s.block) s.world = false)
    (hin : input = Input.Left ∨ input = Input.Right ∨ input = Input.LRot
      ∨ input = Input.RRot) :
    ∃ t, step h fuel input s = some t ∧ t.world = s.world
      ∧ h.playfield_is_colliding t.position (h.pieces t.block) s.world = false := by
  have hU : input ≠ Input.Up := by rcases hin with rfl | rfl | rfl | rfl <;> decide
  have hO : input ≠ Input.Other := by rcases hin with rfl | rfl | rfl | rfl <;> decide
  obtain ⟨m, hm⟩ := exists_candidate h input s hU hO
  have hw : (gravityOutcome h (moveOutcome h s m)).world = s.world :=
    (gravityOutcome_frame h _).2.1.trans (moveOutcome_frame h input s m hm).1
  refine ⟨gravityOutcome h (moveOutcome h s m), step_of_candidate h fuel input s m hs hm,
    hw, ?_⟩
  have := collides_gravityOutcome h _ (collides_moveOutcome h s m hfree)
  rw [← hw]
  exact this

/-- Witness of C18: the square of the empty world, rotated clockwise. -/
theorem moves_keep_noncollision_witness :
    squareStart.playerState = PlayerState.Alive
    ∧ sample.playfield_is_colliding squareStart.position (sample.pieces squareStart.block)
        squareStart.world = false
    ∧ ∃ t, step sample 0 Input.RRot squareStart = some t ∧ t.world = squareStart.world
      ∧ sample.playfield_is_colliding t.position (sample.pieces t.block) squareStart.world
        = false :=
  ⟨rfl, by decide,
    moves_keep_noncollision sample 0 Input.RRot squareStart rfl (by decide)
      (Or.inr (Or.inr (Or.inr rfl)))⟩

/-! ## C19: the spawn column -/

/-- C19: the piece spawned by `place_initial_piece` has the column
`x = floor(W/2) - floor(w/2)` and the row 0, for the world width `W` and the
width `w` of the spawned piece; whenever `w <= W`, `0 <= x`, `x + w <= W`,
and the left margin `x` and the right margin `W - x - w` differ by at most
1. -/
theorem spawn_column_centres (h : Headers Block Gen) (s : State Block Gen) :
    (State.place_initial_piece h s).position
        = ⟨((s.world.width / 2 : Nat) : Int)
            - (((h.pieces (State.place_initial_piece h s).block).width / 2 : Nat) : Int), 0⟩
    ∧ ((h.pieces (State.place_initial_piece h s).block).width ≤ s.world.width →
        0 ≤ (State.place_initial_piece h s).position.x
        ∧ (State.place_initial_piece h s).position.x
            + ((h.pieces (State.place_initial_piece h s).block).width : Int)
          ≤ (s.world.width : Int)
        ∧ |(State.place_initial_piece h s).position.x
            - ((s.world.width : Int) - (State.place_initial_piece h s).position.x
                - ((h.pieces (State.place_initial_piece h s).block).width : Int))| ≤ 1) := by
  constructor
  · simp [State.place_initial_piece, spawnColumn, State.nextBlock]
  · intro hw
    simp only [State.place_initial_piece, spawnColumn] at hw ⊢
    refine ⟨by omega, by omega, abs_le.mpr ⟨by omega, by omega⟩⟩

/-- Witness of C19: the flat bar, of width 4, spawned in the 4 by 4 world. -/
theorem spawn_column_centres_witness :
    (sample.pieces (State.place_initial_piece sample squareStart).block).width
        ≤ squareStart.world.width
    ∧ 0 ≤ (State.place_initial_piece sample squareStart).position.x
    ∧ (State.place_initial_piece sample squareStart).position.x
        + ((sample.pieces (State.place_initial_piece sample squareStart).block).width : Int)
      ≤ (squareStart.world.width : Int)
    ∧ |(State.place_initial_piece sample squareStart).position.x
        - ((squareStart.world.width : Int)
            - (State.place_initial_piece sample squareStart).position.x
            - ((sample.pieces (State.place_initial_piece sample squareStart).block).width
                : Int))| ≤ 1 :=
  ⟨by decide, (spawn_column_centres sample squareStart).2 (by decide)⟩

end Tetris
